import Mathlib

/-!
Shallow embedding of the image-serving core of `src/app.py` (a Flask media
server): Python-style parameter parsing, cache-key derivation
(`hashlib.md5` over a `json.dumps(..., sort_keys=True)` serialization),
the transform pipeline (resize, square crop, rotate, flip via PIL) and the
serving orchestrator of the `image` view (lines 74-191 of `src/app.py`).
Machine integers are modelled as `Int`; Python `int()` truncation of a
float quotient of integers is modelled as `Int.tdiv` (exact truncation
toward zero). PIL operations are modelled symbolically as constructors of
an `Img` type together with their documented effect on canvas dimensions.
-/

namespace MediaServer

/-- Model of a run of decimal digits for Python `int(s)`: a nonempty
all-digit character list denotes its decimal value, anything else fails. -/
def digitsToNat : List Char → Option Nat
  | [] => none
  | cs =>
    if cs.all Char.isDigit then
      some (cs.foldl (fun n c => 10 * n + (c.toNat - 48)) 0)
    else none

/-- Model of Python `int(s)` as used on query-parameter values
(lines 110-111, 116, 122, 151 of `src/app.py`): an optional sign followed
by a nonempty digit run parses; anything else raises `ValueError`,
modelled as `none`. -/
def parseInt (s : String) : Option Int :=
  match s.data with
  | '-' :: rest => (digitsToNat rest).map (fun n => -(n : Int))
  | '+' :: rest => (digitsToNat rest).map (fun n => (n : Int))
  | cs => (digitsToNat cs).map (fun n => (n : Int))

/-- Query parameters (`request.args`), modelled as an association list of
string keys and string values. -/
abbrev Args := List (String × String)

/-- Lookup of a query parameter (`request.args.get(k)`): first binding of
the key, if any. -/
def lookupArg (args : Args) (k : String) : Option String :=
  (args.find? (fun p => p.1 == k)).map (fun p => p.2)

/-- Truthiness-filtered lookup, modelling `request.args.get(k)` used in a
Python boolean context (lines 109, 113, 119, 150): present with a
nonempty value. -/
def getTruthy (args : Args) (k : String) : Option String :=
  match lookupArg args k with
  | some v => if v = "" then none else some v
  | none => none

/-- A stored source image file: its pixel dimensions plus an abstract
content identifier standing for the raw bytes. -/
structure SrcFile where
  width : Int
  height : Int
  content : Nat
deriving DecidableEq

/-- Canvas dimensions of an in-memory image. -/
structure Dims where
  w : Int
  h : Int
deriving DecidableEq

/-- Symbolic model of a PIL in-memory image: the decoded source, or a PIL
operation applied to a previous image.  `resized` is `Image.resize`,
`cropped` is `Image.crop (left, top, right, bottom)`, `rotated` is
`Image.rotate(angle)` (counter-clockwise degrees, default `expand=False`),
`mirrored` is `ImageOps.mirror`, `flipped` is `ImageOps.flip`. -/
inductive Img where
  | source (width height : Int) (content : Nat)
  | resized (i : Img) (w h : Int)
  | cropped (i : Img) (left top right bottom : Int)
  | rotated (i : Img) (angle : Int)
  | mirrored (i : Img)
  | flipped (i : Img)
deriving DecidableEq

/-- Canvas dimensions (`image.size`) of each PIL operation: `resize` sets
them, `crop` takes the box extents, and `rotate` with PIL's default
`expand=False` keeps the canvas size unchanged (content falling outside
is cropped); mirror and flip keep the size. -/
def Img.dims : Img → Dims
  | .source w h _ => ⟨w, h⟩
  | .resized _ w h => ⟨w, h⟩
  | .cropped _ l t r b => ⟨r - l, b - t⟩
  | .rotated i _ => i.dims
  | .mirrored i => i.dims
  | .flipped i => i.dims

/-- Error taxonomy of the serving core, mapping the Python exceptions of
`src/app.py`: the `assert ".." not in image` failure (line 84), the
`OSError` for a missing source (line 87), `ValueError` from `int()` on a
malformed numeric parameter, and `ValueError` from PIL `resize` on a
nonpositive target dimension. -/
inductive Err where
  | invalidReference
  | notFound
  | invalidParameter
  | invalidGeometry
deriving DecidableEq

/-- Parse a numeric query value or fail like Python `int()` with
`ValueError` (surfaced as `InvalidParameter`). -/
def pyInt (s : String) : Except Err Int :=
  match parseInt s with
  | some n => .ok n
  | none => .error .invalidParameter

/-- Model of `image.resize((w, h))` (lines 112, 118, 124): PIL raises
`ValueError` ("height and width must be > 0") when a target dimension is
less than 1, surfaced as `InvalidGeometry`. -/
def resize (img : Img) (w h : Int) : Except Err Img :=
  if w < 1 ∨ h < 1 then .error .invalidGeometry
  else .ok (.resized img w h)

/-- Resize stage (lines 109-124): if both `h` and `w` are given (truthy),
resize to exactly those; else if only `h`, width is
`int(new_height * original_width / original_height)` (float quotient
truncated toward zero, i.e. `Int.tdiv`); else if only `w`, symmetric;
else no-op. -/
def resizeStage (args : Args) (img : Img) : Except Err Img :=
  match getTruthy args "h", getTruthy args "w" with
  | some hs, some ws =>
    match pyInt hs with
    | .error e => .error e
    | .ok nh =>
      match pyInt ws with
      | .error e => .error e
      | .ok nw => resize img nw nh
  | some hs, none =>
    match pyInt hs with
    | .error e => .error e
    | .ok nh => resize img (Int.tdiv (nh * img.dims.w) img.dims.h) nh
  | none, some ws =>
    match pyInt ws with
    | .error e => .error e
    | .ok nw => resize img nw (Int.tdiv (nw * img.dims.h) img.dims.w)
  | none, none => .ok img

/-- Square-crop stage (lines 127-147): only when `format=square`.  With
`width > height` it crops to box `(int(center - half), 0,
int(center + half), height)` where `half = height/2`, `center = width/2`
as exact float halves, so the truncated bounds are `(w - h).tdiv 2` and
`(w + h).tdiv 2`; symmetric when `height > width`; no-op on a square. -/
def cropStage (args : Args) (img : Img) : Img :=
  if lookupArg args "format" = some "square" then
    let w := img.dims.w
    let h := img.dims.h
    if h < w then .cropped img (Int.tdiv (w - h) 2) 0 (Int.tdiv (w + h) 2) h
    else if w < h then .cropped img 0 (Int.tdiv (h - w) 2) w (Int.tdiv (h + w) 2)
    else img
  else img

/-- Rotate stage (lines 150-152): when `rot` is given (truthy), parse it
with `int()` and apply `image.rotate(angle)`. -/
def rotateStage (args : Args) (img : Img) : Except Err Img :=
  match getTruthy args "rot" with
  | some rs =>
    match pyInt rs with
    | .error e => .error e
    | .ok a => .ok (.rotated img a)
  | none => .ok img

/-- Flip stage (lines 155-161): `flip=h` mirrors, `flip=v` flips,
`flip=hv` flips then mirrors; any other value is silently ignored. -/
def flipStage (args : Args) (img : Img) : Img :=
  if lookupArg args "flip" = some "h" then .mirrored img
  else if lookupArg args "flip" = some "v" then .flipped img
  else if lookupArg args "flip" = some "hv" then .mirrored (.flipped img)
  else img

/-- The transform pipeline of the `image` view (lines 106-161), in the
fixed source order: resize, then square crop, then rotate, then flip. -/
def applyParams (args : Args) (img : Img) : Except Err Img :=
  match resizeStage args img with
  | .error e => .error e
  | .ok i1 =>
    match rotateStage args (cropStage args i1) with
    | .error e => .error e
    | .ok i3 => .ok (flipStage args i3)

/-- Key ordering used by `json.dumps(..., sort_keys=True)`: compare
bindings by their keys. -/
def keyLE (a b : String × String) : Prop := a.1 ≤ b.1

instance : DecidableRel keyLE := fun a b => inferInstanceAs (Decidable (a.1 ≤ b.1))

/-- One serialized binding, in the default `json.dumps` style
`"key": "value"` (values of `request.args` are strings; escaping is not
needed for the characters considered here). -/
def jsonField (p : String × String) : String :=
  "\"" ++ p.1 ++ "\": \"" ++ p.2 ++ "\""

/-- Model of `json.dumps(request.args, sort_keys=True)` (line 98): the
bindings sorted lexicographically by key, joined with ", " between
braces. -/
def canonicalSerialize (args : Args) : String :=
  "\x7b" ++ String.intercalate ", " ((List.insertionSort keyLE args).map jsonField) ++ "\x7d"

/-- The string hashed on lines 96-99: `"-".join([image, json.dumps(...)])`. -/
def hashInput (imgId : String) (args : Args) : String :=
  imgId ++ "-" ++ canonicalSerialize args

/-- The cache key of lines 96-99: the hex digest of `hashlib.md5` applied
to `hashInput`.  The digest function itself is external library code
(`hashlib`), so it is abstracted as a parameter `hash`; every property
proved below holds for an arbitrary digest function. -/
def deriveKey (hash : String → String) (imgId : String) (args : Args) : String :=
  hash (hashInput imgId args)

/-- Bytes returned to the client or stored in the cache: either the raw
stored source file (`send_file(path)` on line 93) or a JPEG encoding of a
pipeline image at a given quality (`image.save(..., "JPEG", quality=80,
...)` on lines 175-181). -/
inductive Bytes where
  | raw (f : SrcFile)
  | jpeg (img : Img) (quality : Nat)
deriving DecidableEq

/-- Decoding a stored source file (`Image.open(path)`, line 106). -/
def decode (f : SrcFile) : Img := .source f.width f.height f.content

/-- The cache directory: a mapping from target path to stored bytes. -/
abbrev Cache := List (String × Bytes)

/-- Existence check plus read of a cached artifact
(`os.path.isfile(target_path)` and `send_file(target_path)`). -/
def lookupCache (c : Cache) (k : String) : Option Bytes :=
  (c.find? (fun p => p.1 == k)).map (fun p => p.2)

/-- The source-image directory: a mapping from identifier to stored file
(`os.path.isfile(path)` and `Image.open(path)`). -/
def lookupFs (fs : List (String × SrcFile)) (name : String) : Option SrcFile :=
  (fs.find? (fun p => p.1 == name)).map (fun p => p.2)

/-- The path-traversal guard of line 84: `".." in image` substring test. -/
def hasDotDot (s : String) : Bool :=
  s.data.tails.any (fun t => ['.', '.'].isPrefixOf t)

/-- Result of a successful request: the bytes served, the cache directory
after the request, and an instrumentation flag recording whether the
transform pipeline was invoked on this request. -/
structure ServeOk where
  body : Bytes
  cache : Cache
  transformed : Bool
deriving DecidableEq

/-- The `image` view (lines 74-191): reject traversal identifiers, check
the source exists, serve the original when there are no query parameters,
otherwise derive the cache key (with `".jpg"` appended, line 100), serve
a cached artifact when present, and otherwise run the pipeline, store the
JPEG-encoded result under the key and serve it. -/
def serve (hash : String → String) (fs : List (String × SrcFile)) (cache : Cache)
    (name : String) (args : Args) : Except Err ServeOk :=
  if hasDotDot name then .error .invalidReference
  else
    match lookupFs fs name with
    | none => .error .notFound
    | some f =>
      if args = [] then .ok ⟨.raw f, cache, false⟩
      else
        match lookupCache cache (deriveKey hash name args ++ ".jpg") with
        | some b => .ok ⟨b, cache, false⟩
        | none =>
          match applyParams args (decode f) with
          | .error e => .error e
          | .ok img =>
            .ok ⟨.jpeg img 80,
                 (deriveKey hash name args ++ ".jpg", .jpeg img 80) :: cache, true⟩

/-! ## Helper lemmas -/

/-- Sorting by key yields a strictly key-sorted list when the keys are
distinct. -/
theorem pairwise_key_lt_insertionSort (p : Args) (hnodup : (p.map Prod.fst).Nodup) :
    List.Pairwise (fun a b : String × String => a.1 < b.1) (List.insertionSort keyLE p) := by
  haveI : IsTotal (String × String) keyLE := ⟨fun a b => le_total a.1 b.1⟩
  haveI : IsTrans (String × String) keyLE := ⟨fun _ _ _ h1 h2 => le_trans h1 h2⟩
  have hs : List.Pairwise keyLE (List.insertionSort keyLE p) :=
    List.sorted_insertionSort keyLE p
  have hnd : ((List.insertionSort keyLE p).map Prod.fst).Nodup :=
    (((List.perm_insertionSort keyLE p).map Prod.fst).nodup_iff).mpr hnodup
  have hne : List.Pairwise (fun a b : String × String => a.1 ≠ b.1)
      (List.insertionSort keyLE p) := List.pairwise_map.mp hnd
  exact (hs.and hne).imp (fun h => lt_of_le_of_ne h.1 h.2)

/-- Two permuted bindings lists with distinct keys sort identically. -/
theorem insertionSort_keyLE_eq (p q : Args) (hperm : p.Perm q)
    (hnodup : (p.map Prod.fst).Nodup) :
    List.insertionSort keyLE p = List.insertionSort keyLE q := by
  haveI : IsAntisymm (String × String) (fun a b : String × String => a.1 < b.1) :=
    ⟨fun _ _ h1 h2 => absurd h2 (lt_asymm h1)⟩
  refine List.eq_of_perm_of_sorted (r := fun a b : String × String => a.1 < b.1)
    ((List.perm_insertionSort keyLE p).trans
      (hperm.trans (List.perm_insertionSort keyLE q).symm))
    (pairwise_key_lt_insertionSort p hnodup)
    (pairwise_key_lt_insertionSort q ?_)
  exact ((hperm.map Prod.fst).nodup_iff).mp hnodup

/-- Serving unfolds to a cache hit: when the source exists, the request is
non-empty and the key is present, the stored bytes are returned with the
cache unchanged and the pipeline not invoked. -/
theorem serve_hit (hash : String → String) (fs : List (String × SrcFile))
    (cache : Cache) (name : String) (args : Args) (f : SrcFile) (b : Bytes)
    (hname : hasDotDot name = false) (hfs : lookupFs fs name = some f)
    (hne : args ≠ [])
    (hhit : lookupCache cache (deriveKey hash name args ++ ".jpg") = some b) :
    serve hash fs cache name args = .ok ⟨b, cache, false⟩ := by
  simp [serve, hname, hfs, hne, hhit]

/-- Serving unfolds to a cache miss with a successful pipeline run: the
encoded result is stored under the derived key and returned. -/
theorem serve_miss_ok (hash : String → String) (fs : List (String × SrcFile))
    (cache : Cache) (name : String) (args : Args) (f : SrcFile) (img : Img)
    (hname : hasDotDot name = false) (hfs : lookupFs fs name = some f)
    (hne : args ≠ [])
    (hmiss : lookupCache cache (deriveKey hash name args ++ ".jpg") = none)
    (happ : applyParams args (decode f) = .ok img) :
    serve hash fs cache name args =
      .ok ⟨.jpeg img 80, (deriveKey hash name args ++ ".jpg", .jpeg img 80) :: cache,
           true⟩ := by
  simp [serve, hname, hfs, hne, hmiss, happ]

/-- Serving unfolds to a cache miss with a failing pipeline run: the error
propagates and nothing is stored. -/
theorem serve_miss_err (hash : String → String) (fs : List (String × SrcFile))
    (cache : Cache) (name : String) (args : Args) (f : SrcFile) (e : Err)
    (hname : hasDotDot name = false) (hfs : lookupFs fs name = some f)
    (hne : args ≠ [])
    (hmiss : lookupCache cache (deriveKey hash name args ++ ".jpg") = none)
    (happ : applyParams args (decode f) = .error e) :
    serve hash fs cache name args = .error e := by
  simp [serve, hname, hfs, hne, hmiss, happ]

/-- Cache reads step through a newly stored binding by key equality. -/
theorem lookupCache_cons (k2 k : String) (a : Bytes) (c : Cache) :
    lookupCache ((k2, a) :: c) k = if k2 == k then some a else lookupCache c k := by
  by_cases h : (k2 == k) = true <;> simp [lookupCache, List.find?_cons, h]

/-- A string accepted by the integer parser is nonempty (so it is truthy
in Python). -/
theorem parseInt_ne_empty {s : String} {n : Int} (h : parseInt s = some n) :
    s ≠ "" := by
  rcases s with ⟨data⟩
  cases data with
  | nil => rw [show parseInt ⟨[]⟩ = none from rfl] at h; cases h
  | cons c cs =>
    intro he
    have h2 : c :: cs = ([] : List Char) := congrArg String.data he
    exact List.cons_ne_nil c cs h2

/-- A parseable value makes `pyInt` succeed. -/
theorem pyInt_isSome (s : String) (h : (parseInt s).isSome = true) :
    ∃ n, pyInt s = .ok n := by
  cases hp : parseInt s with
  | none => rw [hp] at h; cases h
  | some n => exact ⟨n, by simp [pyInt, hp]⟩

/-- The PIL resize model only fails with `InvalidGeometry`. -/
theorem resize_no_invalidParameter (img : Img) (w h : Int) :
    resize img w h ≠ .error .invalidParameter := by
  unfold resize
  split <;> simp

/-- All truthy numeric fields (`h`, `w`, `rot`) of a request parse as
integers. -/
def numericOk (args : Args) : Bool :=
  (match getTruthy args "h" with
   | some s => (parseInt s).isSome
   | none => true) &&
  (match getTruthy args "w" with
   | some s => (parseInt s).isSome
   | none => true) &&
  (match getTruthy args "rot" with
   | some s => (parseInt s).isSome
   | none => true)

/-- When the numeric fields parse, the resize stage never raises
`InvalidParameter`. -/
theorem resizeStage_no_invalidParameter (args : Args) (img : Img)
    (hok : numericOk args = true) :
    resizeStage args img ≠ .error .invalidParameter := by
  unfold numericOk at hok
  simp only [Bool.and_eq_true] at hok
  obtain ⟨⟨hh0, hw0⟩, hrot0⟩ := hok
  unfold resizeStage
  cases hh : getTruthy args "h" with
  | some hs =>
    rw [hh] at hh0
    cases hw : getTruthy args "w" with
    | some ws =>
      rw [hw] at hw0
      obtain ⟨nh, hnh⟩ := pyInt_isSome hs hh0
      obtain ⟨nw, hnw⟩ := pyInt_isSome ws hw0
      simp only [hnh, hnw]
      exact resize_no_invalidParameter img nw nh
    | none =>
      obtain ⟨nh, hnh⟩ := pyInt_isSome hs hh0
      simp only [hnh]
      exact resize_no_invalidParameter img _ nh
  | none =>
    cases hw : getTruthy args "w" with
    | some ws =>
      rw [hw] at hw0
      obtain ⟨nw, hnw⟩ := pyInt_isSome ws hw0
      simp only [hnw]
      exact resize_no_invalidParameter img nw _
    | none => simp

/-- When the numeric fields parse, the rotate stage never raises
`InvalidParameter`. -/
theorem rotateStage_no_invalidParameter (args : Args) (img : Img)
    (hok : numericOk args = true) :
    rotateStage args img ≠ .error .invalidParameter := by
  unfold numericOk at hok
  simp only [Bool.and_eq_true] at hok
  obtain ⟨_, hrot0⟩ := hok
  unfold rotateStage
  cases hr : getTruthy args "rot" with
  | some rs =>
    rw [hr] at hrot0
    obtain ⟨a, ha⟩ := pyInt_isSome rs hrot0
    simp only [ha]
    exact fun hc => Except.noConfusion hc
  | none => exact fun hc => Except.noConfusion hc

/-- Centering arithmetic of the square crop: for `0 ≤ b ≤ a` the
truncated upper bound is the truncated lower bound plus the side. -/
theorem tdiv_center_split {a b : Int} (hb : 0 ≤ b) (hab : b ≤ a) :
    Int.tdiv (a + b) 2 = Int.tdiv (a - b) 2 + b := by
  rw [Int.tdiv_eq_ediv (by omega) (by omega), Int.tdiv_eq_ediv (by omega) (by omega)]
  omega

/-- A key bound in no binding of the request is looked up as absent. -/
theorem lookupArg_none_of_keys (args : Args) (k : String)
    (h : ∀ p ∈ args, p.1 ≠ k) : lookupArg args k = none := by
  unfold lookupArg
  have hf : args.find? (fun p => p.1 == k) = none :=
    List.find?_eq_none.mpr (fun x hx => by simpa using h x hx)
  rw [hf]
  rfl

/-- Rounding to the nearest integer (halves up) of the quotient `num/den`
for a positive denominator.  Modelled from the spec:
`new_width = round(new_height * original_width / original_height)`. -/
def specRound (num den : Int) : Int := (2 * num + den) / (2 * den)

/-- Expand-as-needed rotated canvas for right-angle rotations.  Modelled
from the spec: "resulting canvas may grow to contain the rotated
content"; at 90 or 270 degrees the containing canvas swaps the sides. -/
def specExpandDims (angle : Int) (d : Dims) : Dims :=
  if angle % 360 = 90 ∨ angle % 360 = 270 then ⟨d.h, d.w⟩ else d

/-! ## Claims -/

/-- C1: for every source image identifier and every pair of
query-parameter mappings containing the same key-value pairs in any
presentation order, the cache key deriver produces the same key: the key
is the digest of the identifier joined by "-" with the canonical
serialization whose keys are sorted lexicographically, so presentation
order never affects the result (for any digest function). -/
theorem deriveKey_order_invariant (hash : String → String) (imgId : String)
    (p q : Args) (hperm : p.Perm q) (hnodup : (p.map Prod.fst).Nodup) :
    deriveKey hash imgId p = deriveKey hash imgId q := by
  unfold deriveKey hashInput canonicalSerialize
  rw [insertionSort_keyLE_eq p q hperm hnodup]

/-- Witness for C1 at the concrete pair of the spec:
`derive(id, [w:100, h:50])` versus `derive(id, [h:50, w:100])`. -/
theorem deriveKey_order_invariant_witness :
    (([("w", "100"), ("h", "50")] : Args).Perm [("h", "50"), ("w", "100")]) ∧
    ((([("w", "100"), ("h", "50")] : Args).map Prod.fst).Nodup) ∧
    deriveKey (fun s => s) "photo.jpg" [("w", "100"), ("h", "50")] =
      deriveKey (fun s => s) "photo.jpg" [("h", "50"), ("w", "100")] :=
  ⟨List.Perm.swap _ _ _, by decide,
    deriveKey_order_invariant (fun s => s) "photo.jpg" _ _
      (List.Perm.swap _ _ _) (by decide)⟩

/-- C3: a request with an empty parameter mapping bypasses the cache
entirely: the result is the raw stored source bytes and the cache is
returned unchanged, with the pipeline not invoked; the result does not
depend on the digest function or the cache contents. -/
theorem empty_request_bypasses_cache (hash : String → String)
    (fs : List (String × SrcFile)) (cache : Cache) (name : String) (f : SrcFile)
    (hname : hasDotDot name = false) (hfs : lookupFs fs name = some f) :
    serve hash fs cache name [] = .ok ⟨.raw f, cache, false⟩ := by
  simp [serve, hname, hfs]

/-- Witness for C3 on a one-file filesystem. -/
theorem empty_request_bypasses_cache_witness :
    hasDotDot "a.jpg" = false ∧
    lookupFs [("a.jpg", ⟨2, 2, 0⟩)] "a.jpg" = some ⟨2, 2, 0⟩ ∧
    serve (fun s => s) [("a.jpg", ⟨2, 2, 0⟩)] [] "a.jpg" [] =
      .ok ⟨.raw ⟨2, 2, 0⟩, [], false⟩ :=
  ⟨by decide, by decide,
    empty_request_bypasses_cache (fun s => s) _ [] "a.jpg" _ (by decide) (by decide)⟩

/-- C9: an identifier containing a path-traversal sequence is rejected
with `InvalidReference` before any filesystem access: the result is the
same for every filesystem and cache contents. -/
theorem traversal_rejected (hash : String → String) (fs : List (String × SrcFile))
    (cache : Cache) (name : String) (args : Args) (h : hasDotDot name = true) :
    serve hash fs cache name args = .error .invalidReference := by
  simp [serve, h]

/-- Witness for C9 at the identifier of the spec. -/
theorem traversal_rejected_witness :
    hasDotDot "../../etc/passwd" = true ∧
    serve (fun s => s) [("a.jpg", ⟨2, 2, 0⟩)] [] "../../etc/passwd" [] =
      .error .invalidReference :=
  ⟨by decide, traversal_rejected (fun s => s) _ [] "../../etc/passwd" [] (by decide)⟩

/-- C2: for every (identifier, non-empty parameter set), a request whose
derived key already holds an artifact returns the stored bytes unchanged
without re-invoking the pipeline; the first (miss) request stores the
encoded result exactly once, and repeating the identical request then
hits without recomputation; and an artifact stored under any key is never
overwritten by any later request that succeeds. -/
theorem cache_write_once_protocol (hash : String → String)
    (fs : List (String × SrcFile)) (cache : Cache) (name : String) (args : Args)
    (f : SrcFile)
    (hname : hasDotDot name = false) (hfs : lookupFs fs name = some f)
    (hne : args ≠ []) :
    (∀ b, lookupCache cache (deriveKey hash name args ++ ".jpg") = some b →
      serve hash fs cache name args = .ok ⟨b, cache, false⟩) ∧
    (∀ img, lookupCache cache (deriveKey hash name args ++ ".jpg") = none →
      applyParams args (decode f) = .ok img →
      serve hash fs cache name args =
        .ok ⟨.jpeg img 80,
             (deriveKey hash name args ++ ".jpg", .jpeg img 80) :: cache, true⟩ ∧
      serve hash fs ((deriveKey hash name args ++ ".jpg", .jpeg img 80) :: cache)
          name args =
        .ok ⟨.jpeg img 80,
             (deriveKey hash name args ++ ".jpg", .jpeg img 80) :: cache, false⟩) ∧
    (∀ (name2 : String) (args2 : Args) (k : String) (b : Bytes) (res : ServeOk),
      lookupCache cache k = some b →
      serve hash fs cache name2 args2 = .ok res →
      lookupCache res.cache k = some b) := by
  refine ⟨?_, ?_, ?_⟩
  · intro b hb
    exact serve_hit hash fs cache name args f b hname hfs hne hb
  · intro img hmiss happ
    refine ⟨serve_miss_ok hash fs cache name args f img hname hfs hne hmiss happ, ?_⟩
    refine serve_hit hash fs _ name args f (.jpeg img 80) hname hfs hne ?_
    rw [lookupCache_cons]
    simp
  · intro name2 args2 k b res hk hserve
    by_cases hdd : hasDotDot name2
    · simp [serve, hdd] at hserve
    · cases hfs2 : lookupFs fs name2 with
      | none => simp [serve, hdd, hfs2] at hserve
      | some f2 =>
        by_cases hargs : args2 = []
        · simp [serve, hdd, hfs2, hargs] at hserve
          rw [← hserve]
          exact hk
        · cases hc2 : lookupCache cache (deriveKey hash name2 args2 ++ ".jpg") with
          | some b2 =>
            simp [serve, hdd, hfs2, hargs, hc2] at hserve
            rw [← hserve]
            exact hk
          | none =>
            cases happ2 : applyParams args2 (decode f2) with
            | error e => simp [serve, hdd, hfs2, hargs, hc2, happ2] at hserve
            | ok img2 =>
              simp [serve, hdd, hfs2, hargs, hc2, happ2] at hserve
              rw [← hserve]
              have hne2 : (deriveKey hash name2 args2 ++ ".jpg" == k) = false := by
                refine beq_eq_false_iff_ne.mpr ?_
                intro he
                rw [he] at hc2
                rw [hc2] at hk
                cases hk
              simp [lookupCache_cons, hne2]
              exact hk

/-- Witness for C2: a one-file filesystem, an initially empty cache and a
`rot=90` request; the miss populates once, the repeat hits without
recomputation. -/
theorem cache_write_once_protocol_witness :
    hasDotDot "a.jpg" = false ∧
    lookupFs [("a.jpg", (⟨2, 2, 0⟩ : SrcFile))] "a.jpg" = some ⟨2, 2, 0⟩ ∧
    ([("rot", "90")] : Args) ≠ [] ∧
    (serve (fun _ => "K") [("a.jpg", ⟨2, 2, 0⟩)] [] "a.jpg" [("rot", "90")] =
      .ok ⟨.jpeg (.rotated (.source 2 2 0) 90) 80,
           [(deriveKey (fun _ => "K") "a.jpg" [("rot", "90")] ++ ".jpg",
             .jpeg (.rotated (.source 2 2 0) 90) 80)], true⟩ ∧
     serve (fun _ => "K") [("a.jpg", ⟨2, 2, 0⟩)]
        [(deriveKey (fun _ => "K") "a.jpg" [("rot", "90")] ++ ".jpg",
          .jpeg (.rotated (.source 2 2 0) 90) 80)] "a.jpg" [("rot", "90")] =
      .ok ⟨.jpeg (.rotated (.source 2 2 0) 90) 80,
           [(deriveKey (fun _ => "K") "a.jpg" [("rot", "90")] ++ ".jpg",
             .jpeg (.rotated (.source 2 2 0) 90) 80)], false⟩) :=
  ⟨by decide, by decide, by decide,
    (cache_write_once_protocol (fun _ => "K") [("a.jpg", ⟨2, 2, 0⟩)] [] "a.jpg"
        [("rot", "90")] ⟨2, 2, 0⟩ (by decide) (by decide) (by decide)).2.1
      (.rotated (.source 2 2 0) 90) rfl rfl⟩

/-- C4 counterexample: a 199x100 source with `h=50`: the code computes
width `int(50*199/100) = 99` (truncation toward zero), while the claim's
rounding formula gives `round(99.5) = 100`. -/
theorem resize_round_counterexample :
    applyParams [("h", "50")] (.source 199 100 0) =
      .ok (.resized (.source 199 100 0) 99 50) ∧
    specRound (50 * 199) 100 = 100 ∧ (99 : Int) ≠ 100 :=
  ⟨rfl, by decide, by decide⟩

/-- C4 (amended): with only a height (resp. only a width) given, the
other dimension is the aspect-ratio quotient truncated toward zero
(Python `int(...)` of the float quotient), not rounded to nearest. -/
theorem resize_aspect_preserving (img : Img) (s : String) (n : Int)
    (hp : parseInt s = some n) (hpos : 1 ≤ n)
    (hW : 1 ≤ Int.tdiv (n * img.dims.w) img.dims.h)
    (hH : 1 ≤ Int.tdiv (n * img.dims.h) img.dims.w) :
    applyParams [("h", s)] img =
      .ok (.resized img (Int.tdiv (n * img.dims.w) img.dims.h) n) ∧
    applyParams [("w", s)] img =
      .ok (.resized img n (Int.tdiv (n * img.dims.h) img.dims.w)) := by
  have hs0 := parseInt_ne_empty hp
  have hpy : pyInt s = .ok n := by simp [pyInt, hp]
  constructor
  · have g1 : getTruthy [("h", s)] "h" = some s := by
      simp [getTruthy, show lookupArg [("h", s)] "h" = some s from rfl, hs0]
    have g2 : getTruthy [("h", s)] "w" = none := rfl
    have g3 : getTruthy [("h", s)] "rot" = none := rfl
    have g4 : lookupArg [("h", s)] "format" = none := rfl
    have g5 : lookupArg [("h", s)] "flip" = none := rfl
    have hg : ¬(Int.tdiv (n * img.dims.w) img.dims.h < 1 ∨ n < 1) :=
      not_or.mpr ⟨not_lt.mpr hW, not_lt.mpr hpos⟩
    simp [applyParams, resizeStage, cropStage, rotateStage, flipStage, resize,
      g1, g2, g3, g4, g5, hpy, hg]
  · have g1 : getTruthy [("w", s)] "h" = none := rfl
    have g2 : getTruthy [("w", s)] "w" = some s := by
      simp [getTruthy, show lookupArg [("w", s)] "w" = some s from rfl, hs0]
    have g3 : getTruthy [("w", s)] "rot" = none := rfl
    have g4 : lookupArg [("w", s)] "format" = none := rfl
    have g5 : lookupArg [("w", s)] "flip" = none := rfl
    have hg : ¬(n < 1 ∨ Int.tdiv (n * img.dims.h) img.dims.w < 1) :=
      not_or.mpr ⟨not_lt.mpr hpos, not_lt.mpr hH⟩
    simp [applyParams, resizeStage, cropStage, rotateStage, flipStage, resize,
      g1, g2, g3, g4, g5, hpy, hg]

/-- Witness for C4 (amended) at the spec example: a 200x100 source with
`h=50` resizes to 100x50, and with `w=50` to 50x25. -/
theorem resize_aspect_preserving_witness :
    parseInt "50" = some 50 ∧ (1 : Int) ≤ 50 ∧
    1 ≤ Int.tdiv (50 * (Img.source 200 100 0).dims.w) (Img.source 200 100 0).dims.h ∧
    1 ≤ Int.tdiv (50 * (Img.source 200 100 0).dims.h) (Img.source 200 100 0).dims.w ∧
    (applyParams [("h", "50")] (.source 200 100 0) =
      .ok (.resized (.source 200 100 0) 100 50) ∧
     applyParams [("w", "50")] (.source 200 100 0) =
      .ok (.resized (.source 200 100 0) 50 25)) :=
  ⟨rfl, by decide, by decide, by decide,
    resize_aspect_preserving (.source 200 100 0) "50" 50 rfl (by decide)
      (by decide) (by decide)⟩

/-- C5: the square crop with `format=square` crops a wider-than-tall
image to the centered box `(left, 0, left + h, h)` with
`left = (w - h)/2` truncated, keeping the full vertical extent and
producing an h-by-h square; symmetrically on the vertical axis when
taller than wide; and it is a no-op on a square image. -/
theorem square_crop_centered (img : Img)
    (h0 : 0 ≤ img.dims.h) (h1 : 0 ≤ img.dims.w) :
    (img.dims.h < img.dims.w →
      applyParams [("format", "square")] img =
        .ok (.cropped img (Int.tdiv (img.dims.w - img.dims.h) 2) 0
              (Int.tdiv (img.dims.w + img.dims.h) 2) img.dims.h) ∧
      Int.tdiv (img.dims.w + img.dims.h) 2 =
        Int.tdiv (img.dims.w - img.dims.h) 2 + img.dims.h ∧
      (Img.cropped img (Int.tdiv (img.dims.w - img.dims.h) 2) 0
          (Int.tdiv (img.dims.w + img.dims.h) 2) img.dims.h).dims =
        ⟨img.dims.h, img.dims.h⟩) ∧
    (img.dims.w < img.dims.h →
      applyParams [("format", "square")] img =
        .ok (.cropped img 0 (Int.tdiv (img.dims.h - img.dims.w) 2) img.dims.w
              (Int.tdiv (img.dims.h + img.dims.w) 2)) ∧
      Int.tdiv (img.dims.h + img.dims.w) 2 =
        Int.tdiv (img.dims.h - img.dims.w) 2 + img.dims.w ∧
      (Img.cropped img 0 (Int.tdiv (img.dims.h - img.dims.w) 2) img.dims.w
          (Int.tdiv (img.dims.h + img.dims.w) 2)).dims =
        ⟨img.dims.w, img.dims.w⟩) ∧
    (img.dims.w = img.dims.h →
      applyParams [("format", "square")] img = .ok img) := by
  have hre : resizeStage [("format", "square")] img = .ok img := rfl
  have hrot : ∀ j, rotateStage [("format", "square")] j = .ok j := fun j => rfl
  have hfl : ∀ j, flipStage [("format", "square")] j = j := fun j => rfl
  have hfmt : lookupArg [("format", "square")] "format" = some "square" := rfl
  refine ⟨?_, ?_, ?_⟩
  · intro hlt
    have hsplit := tdiv_center_split h0 (le_of_lt hlt)
    have hcrop : cropStage [("format", "square")] img =
        .cropped img (Int.tdiv (img.dims.w - img.dims.h) 2) 0
          (Int.tdiv (img.dims.w + img.dims.h) 2) img.dims.h := by
      simp [cropStage, hfmt, hlt]
    refine ⟨?_, hsplit, ?_⟩
    · simp [applyParams, hre, hcrop, hrot, hfl]
    · simp only [Img.dims, Dims.mk.injEq]
      omega
  · intro hlt
    have hsplit := tdiv_center_split h1 (le_of_lt hlt)
    have hcrop : cropStage [("format", "square")] img =
        .cropped img 0 (Int.tdiv (img.dims.h - img.dims.w) 2) img.dims.w
          (Int.tdiv (img.dims.h + img.dims.w) 2) := by
      simp [cropStage, hfmt, hlt, asymm hlt]
    refine ⟨?_, hsplit, ?_⟩
    · simp [applyParams, hre, hcrop, hrot, hfl]
    · simp only [Img.dims, Dims.mk.injEq]
      omega
  · intro heq
    have hcrop : cropStage [("format", "square")] img = img := by
      simp [cropStage, hfmt, heq]
    simp [applyParams, hre, hcrop, hrot, hfl]

/-- Witness for C5 at the spec example: a 300x100 source with
`format=square` crops to the centered box (100, 0, 200, 100), a 100x100
square. -/
theorem square_crop_centered_witness :
    (0 : Int) ≤ (Img.source 300 100 0).dims.h ∧
    (0 : Int) ≤ (Img.source 300 100 0).dims.w ∧
    (Img.source 300 100 0).dims.h < (Img.source 300 100 0).dims.w ∧
    (applyParams [("format", "square")] (.source 300 100 0) =
      .ok (.cropped (.source 300 100 0) 100 0 200 100) ∧
     Int.tdiv (300 + 100) 2 = Int.tdiv (300 - 100) 2 + 100 ∧
     (Img.cropped (.source 300 100 0) 100 0 200 100).dims = ⟨100, 100⟩) :=
  ⟨by decide, by decide, by decide,
    (square_crop_centered (.source 300 100 0) (by decide) (by decide)).1 (by decide)⟩

/-- C6 counterexample: rotating a 2x1 source by 90 degrees keeps the
2x1 canvas (PIL default `expand=False`), whereas a canvas grown to
contain the rotated content would be 1x2. -/
theorem rotate_no_expand_counterexample :
    applyParams [("rot", "90")] (.source 2 1 0) = .ok (.rotated (.source 2 1 0) 90) ∧
    (Img.rotated (.source 2 1 0) 90).dims = ⟨2, 1⟩ ∧
    specExpandDims 90 ⟨2, 1⟩ = ⟨1, 2⟩ ∧
    (Img.rotated (.source 2 1 0) 90).dims ≠ specExpandDims 90 ⟨2, 1⟩ :=
  ⟨rfl, rfl, by decide, by decide⟩

/-- C6 (amended): the rotate stage rotates the image counter-clockwise by
the given degrees around its center, and with PIL's default
`expand=False` the canvas dimensions are unchanged (content falling
outside the original canvas is cropped, not contained). -/
theorem rotate_fixed_canvas (img : Img) (s : String) (a : Int)
    (hp : parseInt s = some a) :
    applyParams [("rot", s)] img = .ok (.rotated img a) ∧
    (Img.rotated img a).dims = img.dims := by
  have hs0 := parseInt_ne_empty hp
  have hpy : pyInt s = .ok a := by simp [pyInt, hp]
  have g1 : getTruthy [("rot", s)] "rot" = some s := by
    simp [getTruthy, show lookupArg [("rot", s)] "rot" = some s from rfl, hs0]
  have hre : resizeStage [("rot", s)] img = .ok img := rfl
  have hcrop : ∀ j : Img, cropStage [("rot", s)] j = j := fun j => rfl
  have hfl : ∀ j : Img, flipStage [("rot", s)] j = j := fun j => rfl
  refine ⟨?_, rfl⟩
  simp [applyParams, hre, hcrop, hfl, rotateStage, g1, hpy]

/-- Witness for C6 (amended) at a non-right angle. -/
theorem rotate_fixed_canvas_witness :
    parseInt "45" = some 45 ∧
    (applyParams [("rot", "45")] (.source 3 2 0) = .ok (.rotated (.source 3 2 0) 45) ∧
     (Img.rotated (.source 3 2 0) 45).dims = (Img.source 3 2 0).dims) :=
  ⟨rfl, rotate_fixed_canvas (.source 3 2 0) "45" 45 rfl⟩

/-- C7 counterexample: `flip=x` is not one of h, v, hv, yet the request
succeeds with the image unchanged instead of failing with
`InvalidParameter`. -/
theorem flip_invalid_silently_ignored :
    applyParams [("flip", "x")] (.source 2 2 0) = .ok (.source 2 2 0) ∧
    applyParams [("flip", "x")] (.source 2 2 0) ≠ .error .invalidParameter :=
  ⟨rfl, fun hc => Except.noConfusion hc⟩

/-- C7 (amended): `InvalidParameter` arises exactly from numeric parsing:
when every truthy numeric field (`h`, `w`, `rot`) parses as an integer
the pipeline never fails with `InvalidParameter`; a provided non-integer
value for `rot`, `h` or `w` alone fails with `InvalidParameter`; and a
flip value outside h, v, hv is silently ignored, leaving the image
unchanged rather than failing. -/
theorem invalid_parameter_characterization (img : Img) (args : Args)
    (s : String) (v : String) :
    (numericOk args = true → applyParams args img ≠ .error .invalidParameter) ∧
    (s ≠ "" → parseInt s = none →
      applyParams [("rot", s)] img = .error .invalidParameter ∧
      applyParams [("h", s)] img = .error .invalidParameter ∧
      applyParams [("w", s)] img = .error .invalidParameter) ∧
    (v ≠ "h" → v ≠ "v" → v ≠ "hv" →
      applyParams [("flip", v)] img = .ok img) := by
  refine ⟨?_, ?_, ?_⟩
  · intro hok hcontra
    unfold applyParams at hcontra
    cases hres : resizeStage args img with
    | error e =>
      rw [hres] at hcontra
      have h2 : (Except.error e : Except Err Img) = .error .invalidParameter := hcontra
      injection h2 with he
      subst he
      exact resizeStage_no_invalidParameter args img hok hres
    | ok i1 =>
      rw [hres] at hcontra
      have hcontra2 : (match rotateStage args (cropStage args i1) with
          | .error e => (.error e : Except Err Img)
          | .ok i3 => .ok (flipStage args i3)) = .error .invalidParameter := hcontra
      cases hrot2 : rotateStage args (cropStage args i1) with
      | error e =>
        rw [hrot2] at hcontra2
        have h4 : (Except.error e : Except Err Img) = .error .invalidParameter := hcontra2
        injection h4 with he
        subst he
        exact rotateStage_no_invalidParameter args (cropStage args i1) hok hrot2
      | ok i3 =>
        rw [hrot2] at hcontra2
        have h4 : (Except.ok (flipStage args i3) : Except Err Img) =
            .error .invalidParameter := hcontra2
        exact Except.noConfusion h4
  · intro hs0 hpn
    have hpy : pyInt s = .error .invalidParameter := by simp [pyInt, hpn]
    refine ⟨?_, ?_, ?_⟩
    · have g1 : getTruthy [("rot", s)] "rot" = some s := by
        simp [getTruthy, show lookupArg [("rot", s)] "rot" = some s from rfl, hs0]
      have hre : resizeStage [("rot", s)] img = .ok img := rfl
      have hcrop : cropStage [("rot", s)] img = img := rfl
      simp [applyParams, hre, hcrop, rotateStage, g1, hpy]
    · have g1 : getTruthy [("h", s)] "h" = some s := by
        simp [getTruthy, show lookupArg [("h", s)] "h" = some s from rfl, hs0]
      have g2 : getTruthy [("h", s)] "w" = none := rfl
      simp [applyParams, resizeStage, g1, g2, hpy]
    · have g1 : getTruthy [("w", s)] "h" = none := rfl
      have g2 : getTruthy [("w", s)] "w" = some s := by
        simp [getTruthy, show lookupArg [("w", s)] "w" = some s from rfl, hs0]
      simp [applyParams, resizeStage, g1, g2, hpy]
  · intro hv1 hv2 hv3
    have hre : resizeStage [("flip", v)] img = .ok img := rfl
    have hcrop : cropStage [("flip", v)] img = img := rfl
    have hrot : rotateStage [("flip", v)] img = .ok img := rfl
    have hl : lookupArg [("flip", v)] "flip" = some v := rfl
    have hf : flipStage [("flip", v)] img = img := by
      simp [flipStage, hl, hv1, hv2, hv3]
    simp [applyParams, hre, hcrop, hrot, hf]

/-- Witness for C7 (amended): parseable numeric fields never yield
`InvalidParameter`; `rot=abc`, `h=abc`, `w=abc` each do; `flip=x` is
ignored. -/
theorem invalid_parameter_characterization_witness :
    numericOk [("w", "10"), ("h", "20")] = true ∧
    applyParams [("w", "10"), ("h", "20")] (.source 2 2 0) ≠ .error .invalidParameter ∧
    ("abc" : String) ≠ "" ∧ parseInt "abc" = none ∧
    (applyParams [("rot", "abc")] (.source 2 2 0) = .error .invalidParameter ∧
     applyParams [("h", "abc")] (.source 2 2 0) = .error .invalidParameter ∧
     applyParams [("w", "abc")] (.source 2 2 0) = .error .invalidParameter) ∧
    ("x" : String) ≠ "h" ∧ ("x" : String) ≠ "v" ∧ ("x" : String) ≠ "hv" ∧
    applyParams [("flip", "x")] (.source 3 2 1) = .ok (.source 3 2 1) :=
  ⟨by decide,
    (invalid_parameter_characterization (.source 2 2 0) [("w", "10"), ("h", "20")]
      "abc" "x").1 (by decide),
    by decide, rfl,
    (invalid_parameter_characterization (.source 2 2 0) [("w", "10"), ("h", "20")]
      "abc" "x").2.1 (by decide) rfl,
    by decide, by decide, by decide,
    (invalid_parameter_characterization (.source 3 2 1) [("w", "10"), ("h", "20")]
      "abc" "x").2.2 (by decide) (by decide) (by decide)⟩

/-- C8: an explicit resize target that is zero or negative fails with
`InvalidGeometry`, and a failing pipeline run propagates its error out of
the orchestrator without creating any cache binding. -/
theorem nonpositive_resize_invalid_geometry (img : Img) (hs ws : String)
    (nh nw : Int)
    (hph : parseInt hs = some nh) (hpw : parseInt ws = some nw)
    (hbad : nw < 1 ∨ nh < 1) :
    applyParams [("h", hs), ("w", ws)] img = .error .invalidGeometry ∧
    ∀ (hash : String → String) (fs : List (String × SrcFile)) (cache : Cache)
      (name : String) (f : SrcFile) (args : Args) (e : Err),
      hasDotDot name = false → lookupFs fs name = some f → args ≠ [] →
      lookupCache cache (deriveKey hash name args ++ ".jpg") = none →
      applyParams args (decode f) = .error e →
      serve hash fs cache name args = .error e := by
  constructor
  · have hh0 := parseInt_ne_empty hph
    have hw0 := parseInt_ne_empty hpw
    have g1 : getTruthy [("h", hs), ("w", ws)] "h" = some hs := by
      simp [getTruthy, show lookupArg [("h", hs), ("w", ws)] "h" = some hs from rfl, hh0]
    have g2 : getTruthy [("h", hs), ("w", ws)] "w" = some ws := by
      simp [getTruthy, show lookupArg [("h", hs), ("w", ws)] "w" = some ws from rfl, hw0]
    have hpyh : pyInt hs = .ok nh := by simp [pyInt, hph]
    have hpyw : pyInt ws = .ok nw := by simp [pyInt, hpw]
    have hre : resize img nw nh = .error .invalidGeometry := by
      unfold resize
      rw [if_pos hbad]
    simp [applyParams, resizeStage, g1, g2, hpyh, hpyw, hre]
  · intro hash fs cache name f args e hname hfs hne hmiss happ
    exact serve_miss_err hash fs cache name args f e hname hfs hne hmiss happ

/-- Witness for C8: `h=0, w=5` fails with `InvalidGeometry` and the serve
path returns the error with nothing cached. -/
theorem nonpositive_resize_invalid_geometry_witness :
    parseInt "0" = some 0 ∧ parseInt "5" = some 5 ∧
    ((5 : Int) < 1 ∨ (0 : Int) < 1) ∧
    (applyParams [("h", "0"), ("w", "5")] (.source 2 2 0) = .error .invalidGeometry ∧
     serve (fun _ => "K") [("a.jpg", ⟨2, 2, 0⟩)] [] "a.jpg" [("h", "0"), ("w", "5")] =
       .error .invalidGeometry) :=
  ⟨rfl, rfl, by decide,
    (nonpositive_resize_invalid_geometry (.source 2 2 0) "0" "5" 0 5 rfl rfl
      (by decide)).1,
    (nonpositive_resize_invalid_geometry (.source 2 2 0) "0" "5" 0 5 rfl rfl
      (by decide)).2
      (fun _ => "K") [("a.jpg", ⟨2, 2, 0⟩)] [] "a.jpg" ⟨2, 2, 0⟩
      [("h", "0"), ("w", "5")] .invalidGeometry (by decide) (by decide)
      (by decide) rfl rfl⟩

/-- C10: a non-empty request all of whose keys are unrecognized is not
served as the original: a cache key is derived, every transform stage is
a no-op on the decoded source, and the image is re-encoded as JPEG at
quality 80, stored under the key and returned; the returned bytes are a
re-encoding, not the raw stored source bytes. -/
theorem unrecognized_params_reencode (hash : String → String)
    (fs : List (String × SrcFile)) (cache : Cache) (name : String) (args : Args)
    (f : SrcFile)
    (hname : hasDotDot name = false) (hfs : lookupFs fs name = some f)
    (hne : args ≠ [])
    (hkeys : ∀ p ∈ args, p.1 ∉ (["w", "h", "format", "rot", "flip"] : List String))
    (hmiss : lookupCache cache (deriveKey hash name args ++ ".jpg") = none) :
    applyParams args (decode f) = .ok (decode f) ∧
    serve hash fs cache name args =
      .ok ⟨.jpeg (decode f) 80,
           (deriveKey hash name args ++ ".jpg", .jpeg (decode f) 80) :: cache, true⟩ ∧
    Bytes.jpeg (decode f) 80 ≠ .raw f := by
  have hnk : ∀ (k : String), k ∈ (["w", "h", "format", "rot", "flip"] : List String) →
      lookupArg args k = none := by
    intro k hk
    exact lookupArg_none_of_keys args k (fun p hp he => hkeys p hp (he ▸ hk))
  have hw := hnk "w" (by simp)
  have hh := hnk "h" (by simp)
  have hfm := hnk "format" (by simp)
  have hr := hnk "rot" (by simp)
  have hfl := hnk "flip" (by simp)
  have happ : applyParams args (decode f) = .ok (decode f) := by
    have g1 : getTruthy args "h" = none := by simp [getTruthy, hh]
    have g2 : getTruthy args "w" = none := by simp [getTruthy, hw]
    have g3 : getTruthy args "rot" = none := by simp [getTruthy, hr]
    simp [applyParams, resizeStage, cropStage, rotateStage, flipStage,
      g1, g2, g3, hfm, hfl]
  exact ⟨happ,
    serve_miss_ok hash fs cache name args f (decode f) hname hfs hne hmiss happ,
    by simp⟩

/-- Witness for C10: a request `foo=bar` on a 2x2 source is re-encoded
and cached rather than served as the original. -/
theorem unrecognized_params_reencode_witness :
    hasDotDot "a.jpg" = false ∧
    lookupFs [("a.jpg", (⟨2, 2, 0⟩ : SrcFile))] "a.jpg" = some ⟨2, 2, 0⟩ ∧
    ([("foo", "bar")] : Args) ≠ [] ∧
    (∀ p ∈ ([("foo", "bar")] : Args),
      p.1 ∉ (["w", "h", "format", "rot", "flip"] : List String)) ∧
    lookupCache [] (deriveKey (fun _ => "K") "a.jpg" [("foo", "bar")] ++ ".jpg") =
      none ∧
    (applyParams [("foo", "bar")] (decode ⟨2, 2, 0⟩) = .ok (decode ⟨2, 2, 0⟩) ∧
     serve (fun _ => "K") [("a.jpg", ⟨2, 2, 0⟩)] [] "a.jpg" [("foo", "bar")] =
       .ok ⟨.jpeg (decode ⟨2, 2, 0⟩) 80,
            (deriveKey (fun _ => "K") "a.jpg" [("foo", "bar")] ++ ".jpg",
             .jpeg (decode ⟨2, 2, 0⟩) 80) :: [], true⟩ ∧
     Bytes.jpeg (decode ⟨2, 2, 0⟩) 80 ≠ .raw ⟨2, 2, 0⟩) :=
  ⟨by decide, by decide, by decide, by decide, rfl,
    unrecognized_params_reencode (fun _ => "K") [("a.jpg", ⟨2, 2, 0⟩)] [] "a.jpg"
      [("foo", "bar")] ⟨2, 2, 0⟩ (by decide) (by decide) (by decide) (by decide) rfl⟩

end MediaServer
